import Mathlib

set_option maxHeartbeats 1000000
set_option maxRecDepth 100000

namespace FileKeeper

/-!
Shallow embedding of the FileKeeper repository (src/server.py, src/client.py).

Server side: `processCommand` models one iteration of the command loop of
`FileServer.handle_client` (server.py lines 63-206) acting on the per-connection
state (the `authenticated_user` variable, the immutable user mapping and the
filesystem storage).  The filesystem is modelled as a finite map from resolved
absolute paths (lists of path components, with `.` / `..` / empty components
normalised away, relative paths resolved against a fixed abstract working
directory `cwdPath`) to byte lists; directories themselves are not modelled, so
reads and removes of paths that are not stored files surface as
FileNotFoundError.  Bytes are natural numbers below 256.

Client side: `connectToNextNode`, `ensureConnected`, `sendCommand` and
`authenticate` model `FileClient._connect_to_next_node`, `_ensure_connected`,
`_send_command` and `authenticate` from client.py.  Socket objects are modelled
by numeric identifiers; the outcome of the network interaction of one
`_send_command` call is an explicit `NetOutcome` parameter (send raises /
receive fails or times out / a response string arrives), and reachability of an
endpoint is a boolean predicate `live`.
-/

instance {α β : Type} [DecidableEq α] [DecidableEq β] : DecidableEq (Except α β) := fun x y =>
  match x, y with
  | Except.ok a, Except.ok b =>
    if h : a = b then isTrue (by rw [h]) else isFalse (fun hh => h (Except.ok.inj hh))
  | Except.error a, Except.error b =>
    if h : a = b then isTrue (by rw [h]) else isFalse (fun hh => h (Except.error.inj hh))
  | Except.ok _, Except.error _ => isFalse (fun hh => Except.noConfusion hh)
  | Except.error _, Except.ok _ => isFalse (fun hh => Except.noConfusion hh)

/-- ASCII whitespace recognised by Python `str.strip()` and `str.split()`
(space, tab, newline, vertical tab, form feed, carriage return); Unicode-only
whitespace is not modelled. -/
def isPySpace (c : Char) : Bool :=
  c == ' ' || c == '\t' || c == '\n' || c == '\x0b' || c == '\x0c' || c == '\r'

/-- Python `str.strip()` on the ASCII fragment: drop leading and trailing
whitespace (server.py line 72). -/
def pyStrip (s : List Char) : List Char :=
  ((s.dropWhile isPySpace).reverse.dropWhile isPySpace).reverse

/-- Python `command.split(maxsplit=2)` (server.py line 79): at most three
fields separated by runs of whitespace; the third field keeps its internal
spacing (only its leading whitespace is consumed). -/
def splitMax2 (s : List Char) : List (List Char) :=
  let s1 := s.dropWhile isPySpace
  if s1 = [] then []
  else
    let t1 := s1.takeWhile (fun c => !isPySpace c)
    let r1 := (s1.dropWhile (fun c => !isPySpace c)).dropWhile isPySpace
    if r1 = [] then [t1]
    else
      let t2 := r1.takeWhile (fun c => !isPySpace c)
      let r2 := (r1.dropWhile (fun c => !isPySpace c)).dropWhile isPySpace
      if r2 = [] then [t1, t2] else [t1, t2, r2]

/-- Python `parts[0].upper()` (server.py line 85); `Char.toUpper` agrees with
Python `str.upper` on ASCII, which covers every protocol verb. -/
def listToUpper (l : List Char) : List Char := l.map Char.toUpper

/-- The standard base64 alphabet used by `base64.b64encode` /
`base64.b64decode`. -/
def b64Alphabet : List Char :=
  "ABCDEFGHIJKLMNOPQRSTUVWXYZabcdefghijklmnopqrstuvwxyz0123456789+/".toList

/-- Character of the alphabet at a sextet value. -/
def sextetChar (n : Nat) : Char := b64Alphabet.getD n 'A'

/-- `base64.b64encode` on a byte list: three bytes become four alphabet
characters, a final group of one or two bytes is padded with `=`. -/
def b64EncodeList : List Nat → List Char
  | [] => []
  | [a] => [sextetChar (a / 4), sextetChar (a % 4 * 16), '=', '=']
  | [a, b] => [sextetChar (a / 4), sextetChar (a % 4 * 16 + b / 16),
      sextetChar (b % 16 * 4), '=']
  | a :: b :: c :: rest =>
      sextetChar (a / 4) :: sextetChar (a % 4 * 16 + b / 16) ::
      sextetChar (b % 16 * 4 + c / 64) :: sextetChar (c % 64) :: b64EncodeList rest

/-- `base64.b64encode(...).decode()`: the encoded token as a string
(client.py line 135, server.py line 155). -/
def b64encode (bs : List Nat) : String := String.mk (b64EncodeList bs)

/-- Value of a character in the base64 alphabet, `none` for every other
character (the `table_a2b_base64` lookup of CPython's binascii). -/
def b64CharVal (c : Char) : Option Nat := b64Alphabet.findIdx? (fun a => a == c)

/-- CPython `binascii.a2b_base64` in non-strict mode (the default used by
`base64.b64decode(s)` with `validate=False`): characters outside the alphabet
are silently discarded; `=` terminates the data once a quad position of 2 or 3
has accumulated enough padding; a final quad position of 1 raises the
"cannot be 1 more than a multiple of 4" error and a final quad position of 2 or
3 raises "Incorrect padding".  Arguments: remaining input, quad position,
leftover bits, consecutive-pad count, accumulated output bytes (reversed). -/
def a2b : List Char → Nat → Nat → Nat → List Nat → Except String (List Nat)
  | [], quadPos, _, _, acc =>
    if quadPos = 0 then Except.ok acc.reverse
    else if quadPos = 1 then
      Except.error ("Invalid base64-encoded string: number of data characters (" ++
        toString (acc.length / 3 * 4 + 1) ++ ") cannot be 1 more than a multiple of 4")
    else Except.error "Incorrect padding"
  | ch :: rest, quadPos, leftchar, pads, acc =>
    if ch == '=' then
      if 2 ≤ quadPos then
        if 4 ≤ quadPos + (pads + 1) then Except.ok acc.reverse
        else a2b rest quadPos leftchar (pads + 1) acc
      else a2b rest quadPos leftchar pads acc
    else
      match b64CharVal ch with
      | none => a2b rest quadPos leftchar pads acc
      | some v =>
        match quadPos with
        | 0 => a2b rest 1 v 0 acc
        | 1 => a2b rest 2 (v % 16) 0 ((leftchar * 4 + v / 16) :: acc)
        | 2 => a2b rest 3 (v % 4) 0 ((leftchar * 16 + v / 4) :: acc)
        | _ => a2b rest 0 0 0 ((leftchar * 64 + v) :: acc)

/-- `base64.b64decode` applied to a Python `str` (server.py line 131): the
string is first ASCII-encoded (non-ASCII input raises the ValueError shown
below), then fed to `binascii.a2b_base64` in non-strict mode. -/
def b64decode (payload : List Char) : Except String (List Nat) :=
  if payload.any (fun c => decide (128 ≤ c.toNat)) then
    Except.error "string argument should contain only ASCII characters"
  else a2b payload 0 0 0 []

/-- Python truthiness test `b.startswith(pre)` on strings. -/
def pyStartsWith (s pre : String) : Bool := pre.toList.isPrefixOf s.toList

/-- Helper for `str.split("/")`: accumulates the current (reversed) component. -/
def splitSlashAux : List Char → List Char → List (List Char)
  | [], acc => [acc.reverse]
  | c :: rest, acc =>
    if c = '/' then acc.reverse :: splitSlashAux rest []
    else splitSlashAux rest (c :: acc)

/-- Split a path string at `/` characters (empty components are kept, as in
Python). -/
def splitOnSlash (s : String) : List String := (splitSlashAux s.toList []).map String.mk

/-- `os.path.join(a, b)` on POSIX for a single join: an absolute second
component discards the first. -/
def joinPathStr (a b : String) : String :=
  if pyStartsWith b "/" then b else a ++ "/" ++ b

/-- Abstract absolute path of the server's working directory (the storage
directory `"storage"` of server.py line 11 is relative to it). -/
def cwdPath : List String := ["srv", "app"]

/-- Kernel path resolution: empty and `.` components are dropped, `..` removes
the preceding component (clamped at the filesystem root). -/
def normPath : List String → List String → List String
  | acc, [] => acc.reverse
  | acc, comp :: rest =>
    if comp = "" || comp = "." then normPath acc rest
    else if comp = ".." then normPath acc.tail rest
    else normPath (comp :: acc) rest

/-- Resolve a path string to a normalised absolute path (relative paths are
resolved against `cwdPath`). -/
def resolve (p : String) : List String :=
  if pyStartsWith p "/" then normPath [] (splitOnSlash p)
  else normPath [] (cwdPath ++ splitOnSlash p)

/-- `os.path.join(self.storage_dir, username)` of `FileServer._get_user_dir`
(server.py line 33), with the default storage directory `"storage"`. -/
def userDirStr (user : String) : String := joinPathStr "storage" user

/-- Resolved path of `os.path.join(self._get_user_dir(user), filename)`
(server.py lines 132, 149, 173). -/
def filePathOf (user filename : String) : List String :=
  resolve (joinPathStr (userDirStr user) filename)

/-- The filesystem contents: stored files keyed by resolved absolute path. -/
abbrev Storage := List (List String × List Nat)

/-- Reading a file: `open(path, "rb")` succeeds exactly on stored keys. -/
def lookupStore (s : Storage) (k : List String) : Option (List Nat) :=
  (s.find? (fun e => e.1 == k)).map (fun e => e.2)

/-- Writing a file: `open(path, "wb")` overwrites any existing entry. -/
def insertStore (k : List String) (v : List Nat) (s : Storage) : Storage :=
  (k, v) :: s.filter (fun e => !(e.1 == k))

/-- `os.remove(path)`. -/
def eraseStore (k : List String) (s : Storage) : Storage :=
  s.filter (fun e => !(e.1 == k))

/-- `os.listdir(dir)` over the stored files: names of entries directly inside
`dir` (server.py line 192). -/
def listDir (s : Storage) (dir : List String) : List String :=
  (s.filter (fun e => e.1.length == dir.length + 1 && e.1.take dir.length == dir)).map
    (fun e => e.1.getD dir.length "")

/-- Lower-case hexadecimal digit. -/
def hexDigit (n : Nat) : Char := if n < 10 then Char.ofNat (48 + n) else Char.ofNat (87 + n)

/-- JSON `\uXXXX` escape. -/
def uEscape (n : Nat) : List Char :=
  ['\\', 'u', hexDigit (n / 4096 % 16), hexDigit (n / 256 % 16),
   hexDigit (n / 16 % 16), hexDigit (n % 16)]

/-- Escaping of one character by `json.dumps` (default `ensure_ascii=True`). -/
def jsonEscapeChar (c : Char) : List Char :=
  if c = '"' then ['\\', '"']
  else if c = '\\' then ['\\', '\\']
  else if c = '\n' then ['\\', 'n']
  else if c = '\t' then ['\\', 't']
  else if c = '\r' then ['\\', 'r']
  else if c.toNat = 8 then ['\\', 'b']
  else if c.toNat = 12 then ['\\', 'f']
  else if c.toNat < 32 then uEscape c.toNat
  else if c.toNat < 128 then [c]
  else if c.toNat < 65536 then uEscape c.toNat
  else uEscape (55296 + (c.toNat - 65536) / 1024) ++ uEscape (56320 + (c.toNat - 65536) % 1024)

/-- JSON string literal for a filename. -/
def jsonString (s : String) : String :=
  String.mk ('"' :: (s.toList.map jsonEscapeChar).flatten ++ ['"'])

/-- Comma-space separator of `json.dumps`. -/
def joinWithCommaSpace : List String → String
  | [] => ""
  | [s] => s
  | s :: rest => s ++ ", " ++ joinWithCommaSpace rest

/-- `json.dumps(files)` for a list of filename strings (server.py line 193). -/
def jsonArray (l : List String) : String :=
  "[" ++ joinWithCommaSpace (l.map jsonString) ++ "]"

/-- Per-connection server state: the immutable user mapping loaded at startup,
the `authenticated_user` local of `handle_client` (server.py line 56) and the
storage backend. -/
structure ServerConn where
  users : List (String × String)
  authUser : Option String
  storage : Storage
deriving DecidableEq, Repr

/-- Lookup in the user dictionary (`username in self.users` /
`self.users[username]`, server.py lines 99-100). -/
def lookupUser (users : List (String × String)) (u : String) : Option String :=
  (users.find? (fun e => e.1 == u)).map (fun e => e.2)

/-- The AUTH handler body (server.py lines 94-115): absent user, wrong
password, or success which overwrites `authenticated_user`. -/
def authCmd (st : ServerConn) (username password : String) : Option String × ServerConn :=
  match lookupUser st.users username with
  | some stored =>
    if stored = password then
      (some "OK Authenticated", { st with authUser := some username })
    else (some "ERROR Invalid password", st)
  | none => (some "ERROR User not found", st)

/-- The UPLOAD handler body (server.py lines 126-141): decode the payload and
write the bytes; a decode failure is reported with the exception text. -/
def uploadCmd (st : ServerConn) (user : String) (filename : String) (payload : List Char) :
    Option String × ServerConn :=
  match b64decode payload with
  | Except.ok content =>
    (some "OK File uploaded",
     { st with storage := insertStore (filePathOf user filename) content st.storage })
  | Except.error msg => (some ("ERROR Upload failed: " ++ msg), st)

/-- The DOWNLOAD handler body (server.py lines 148-165). -/
def downloadCmd (st : ServerConn) (user : String) (filename : String) :
    Option String × ServerConn :=
  match lookupStore st.storage (filePathOf user filename) with
  | some content => (some ("OK " ++ b64encode content), st)
  | none => (some "ERROR File not found", st)

/-- The DELETE handler body (server.py lines 172-186). -/
def deleteCmd (st : ServerConn) (user : String) (filename : String) :
    Option String × ServerConn :=
  match lookupStore st.storage (filePathOf user filename) with
  | some _ =>
    (some "OK File deleted", { st with storage := eraseStore (filePathOf user filename) st.storage })
  | none => (some "ERROR File not found", st)

/-- Dispatch of the file commands once the connection is authenticated as
`user` (server.py lines 121-203): UPLOAD, DOWNLOAD, DELETE, LIST with their
arity checks, then the unknown-verb reply. -/
def dispatchAuthed (st : ServerConn) (user : String) (cmd : List Char)
    (args : List (List Char)) : Option String × ServerConn :=
  if cmd = "UPLOAD".toList then
    match args with
    | [fn, payload] => uploadCmd st user (String.mk fn) payload
    | _ => (some "ERROR Invalid upload command", st)
  else if cmd = "DOWNLOAD".toList then
    match args with
    | [fn] => downloadCmd st user (String.mk fn)
    | _ => (some "ERROR Invalid download command", st)
  else if cmd = "DELETE".toList then
    match args with
    | [fn] => deleteCmd st user (String.mk fn)
    | _ => (some "ERROR Invalid delete command", st)
  else if cmd = "LIST".toList then
    (some ("OK " ++ jsonArray (listDir st.storage (resolve (userDirStr user)))), st)
  else (some "ERROR Unknown command", st)

/-- Verb dispatch of `handle_client` (server.py lines 88-203): AUTH is handled
first, then the authentication gate, then the file commands. -/
def dispatch (st : ServerConn) (cmd : List Char) (args : List (List Char)) :
    Option String × ServerConn :=
  if cmd = "AUTH".toList then
    match args with
    | [u, p] => authCmd st (String.mk u) (String.mk p)
    | _ => (some "ERROR Invalid auth command", st)
  else
    match st.authUser with
    | none => (some "ERROR Authentication required", st)
    | some user => dispatchAuthed st user cmd args

/-- One iteration of the command loop of `handle_client` (server.py lines
72-203) on one received message: strip, ignore empty lines (no response),
split into at most three parts and dispatch.  The first component is the
response sent back (`none` when the empty line is ignored), the second the
connection state afterwards. -/
def processCommand (st : ServerConn) (data : String) : Option String × ServerConn :=
  if pyStrip data.toList = [] then (none, st)
  else
    match splitMax2 (pyStrip data.toList) with
    | [] => (some "ERROR Invalid command format", st)
    | verb :: args => dispatch st (listToUpper verb) args

/-- A client endpoint `(host, port)`. -/
abbrev Node := String × Nat

/-- Client session state (client.py lines 12-16): endpoint list, round-robin
index, the socket (`none` when absent, otherwise a numeric identifier naming
the socket object) and the authentication flag. -/
structure FileClient where
  nodes : List Node
  current_node : Nat
  session : Option Nat
  authenticated : Bool
deriving DecidableEq, Repr

/-- The retry loop of `_connect_to_next_node` (client.py lines 27-44):
remaining attempts count down from `len(nodes)`; a live endpoint stops the
loop at the current index, a dead one advances the index modulo the list
length. -/
def connectAttemptsAux (nodes : List Node) (live : Node → Bool) : Nat → Nat → Bool × Nat
  | current, 0 => (false, current)
  | current, rem + 1 =>
    if live (nodes.getD current ("", 0)) then (true, current)
    else connectAttemptsAux nodes live ((current + 1) % nodes.length) rem

/-- `FileClient._connect_to_next_node` (client.py lines 18-44): an existing
session object is closed with `authenticated = False` (a `None` session skips
that reset), then endpoints are tried round-robin.  Each attempt assigns a
fresh socket object to `self.session` before connecting, so after a failed
round the session still holds the last (unconnected) socket object.
`closeSession` is the prologue (client.py lines 19-25). -/
def closeSession (st : FileClient) : FileClient :=
  match st.session with
  | some _ => { st with session := none, authenticated := false }
  | none => st

def connectToNextNode (live : Node → Bool) (newId : Nat) (st : FileClient) :
    Bool × FileClient :=
  match connectAttemptsAux (closeSession st).nodes live (closeSession st).current_node
      (closeSession st).nodes.length with
  | (true, idx) => (true, { closeSession st with current_node := idx, session := some newId })
  | (false, idx) =>
    (false, { closeSession st with current_node := idx, session := (if (closeSession st).nodes = [] then none else some newId) })

/-- `FileClient._ensure_connected` (client.py lines 46-49). -/
def ensureConnected (live : Node → Bool) (newId : Nat) (st : FileClient) :
    Bool × FileClient :=
  match st.session with
  | none => connectToNextNode live newId st
  | some _ => (true, st)

/-- Outcome of the network interaction of one `_send_command` call: the
`send` loop raises, the `recv` times out or raises, or a response string
arrives. -/
inductive NetOutcome where
  | sendFail
  | recvFail
  | reply (r : String)
deriving DecidableEq, Repr

/-- `FileClient._send_command` (client.py lines 51-90).  The command text does
not influence the client state, so it is omitted.  The outer exception handler
(send failure) sets `self.session = None` but leaves `self.authenticated`
untouched; a receive failure returns `None` keeping the session. -/
def sendCommand (live : Node → Bool) (newId : Nat) (outcome : NetOutcome)
    (st : FileClient) : Option String × FileClient :=
  match ensureConnected live newId st with
  | (false, st1) => (none, st1)
  | (true, st1) =>
    match outcome with
    | NetOutcome.sendFail => (none, { st1 with session := none })
    | NetOutcome.recvFail => (none, st1)
    | NetOutcome.reply r => (some r, st1)

/-- `FileClient.authenticate` (client.py lines 92-108): sends AUTH through
`_send_command` and sets the flag when the response starts with `OK`; a failed
attempt leaves the flag as it was. -/
def authenticate (live : Node → Bool) (newId : Nat) (outcome : NetOutcome)
    (st : FileClient) : Bool × FileClient :=
  match sendCommand live newId outcome st with
  | (some r, st1) =>
    if pyStartsWith r "OK" then (true, { st1 with authenticated := true })
    else (false, st1)
  | (none, st1) => (false, st1)

/-! Helper lemmas about the server model. -/

theorem mk_toList (s : String) : String.mk s.toList = s := rfl

theorem splitMax2_nil : splitMax2 [] = [] := rfl

/-- A command whose stripped text splits into `verb :: args` is handled by
`dispatch` on the upper-cased verb. -/
theorem processCommand_parsed (st : ServerConn) (data : String) (verb : List Char)
    (args : List (List Char)) (hp : splitMax2 (pyStrip data.toList) = verb :: args) :
    processCommand st data = dispatch st (listToUpper verb) args := by
  unfold processCommand
  have hne : ¬ pyStrip data.toList = [] := by
    intro h
    rw [h, splitMax2_nil] at hp
    exact List.noConfusion hp
  rw [if_neg hne, hp]

theorem find?_filter_not (p : (List String × List Nat) → Bool) :
    ∀ s : Storage, List.find? p (s.filter (fun e => !(p e))) = none := by
  intro s
  induction s with
  | nil => rfl
  | cons e rest ih =>
    by_cases h : p e
    · simp [List.filter_cons, h, ih]
    · simp [List.filter_cons, h, List.find?_cons, ih]

theorem lookupStore_erase (s : Storage) (k : List String) :
    lookupStore (eraseStore k s) k = none := by
  unfold lookupStore eraseStore
  rw [find?_filter_not (fun e => e.1 == k) s]
  rfl

theorem lookupStore_insert (s : Storage) (k : List String) (v : List Nat) :
    lookupStore (insertStore k v s) k = some v := by
  unfold lookupStore insertStore
  rw [List.find?_cons_of_pos _ (by simp)]
  rfl

/-- Every non-AUTH command on an unauthenticated connection hits the
authentication gate (server.py lines 117-119). -/
theorem unauth_gate (st : ServerConn) (data : String) (verb : List Char)
    (args : List (List Char))
    (hp : splitMax2 (pyStrip data.toList) = verb :: args)
    (hverb : ¬ listToUpper verb = "AUTH".toList)
    (hauth : st.authUser = none) :
    processCommand st data = (some "ERROR Authentication required", st) := by
  rw [processCommand_parsed st data verb args hp]
  unfold dispatch
  rw [if_neg hverb, hauth]

/-- An unauthenticated connection can never be answered with
`ERROR Unknown command`: the gate is checked before verb dispatch. -/
theorem unauth_never_unknown (st : ServerConn) (data : String)
    (hauth : st.authUser = none) :
    ¬ (processCommand st data).1 = some "ERROR Unknown command" := by
  unfold processCommand
  split
  · simp
  · split
    · simp
    · unfold dispatch
      split
      · split
        · unfold authCmd
          split
          · split <;> simp
          · simp
        · simp
      · rw [hauth]
        simp

/-- On a connection authenticated as `user`, a non-AUTH verb is handled by the
authenticated dispatcher. -/
theorem dispatch_authed (st : ServerConn) (user : String) (cmd : List Char)
    (args : List (List Char)) (hauth : st.authUser = some user)
    (hcmd : ¬ cmd = "AUTH".toList) :
    dispatch st cmd args = dispatchAuthed st user cmd args := by
  unfold dispatch
  rw [if_neg hcmd, hauth]

/-! Round-trip of the payload codec. -/

/-- Every alphabet character is distinct from the pad, decodes back to its
sextet value, is ASCII and is not whitespace. -/
theorem sextet_facts : ∀ n, n < 64 →
    ((sextetChar n == '=') = false ∧ b64CharVal (sextetChar n) = some n ∧
      decide (128 ≤ (sextetChar n).toNat) = false ∧ isPySpace (sextetChar n) = false) := by
  decide

/-- Decoding one full four-character block appends the three source bytes. -/
theorem a2b_block (a b c : Nat) (ha : a < 256) (hb : b < 256) (hc : c < 256)
    (rest : List Char) (acc : List Nat) :
    a2b (sextetChar (a / 4) :: sextetChar (a % 4 * 16 + b / 16) ::
         sextetChar (b % 16 * 4 + c / 64) :: sextetChar (c % 64) :: rest) 0 0 0 acc
      = a2b rest 0 0 0 (c :: b :: a :: acc) := by
  have h1 := sextet_facts (a / 4) (by omega)
  have h2 := sextet_facts (a % 4 * 16 + b / 16) (by omega)
  have h3 := sextet_facts (b % 16 * 4 + c / 64) (by omega)
  have h4 := sextet_facts (c % 64) (by omega)
  have e1 : a / 4 * 4 + (a % 4 * 16 + b / 16) / 16 = a := by omega
  have e1l : (a % 4 * 16 + b / 16) % 16 = b / 16 := by omega
  have e2 : b / 16 * 16 + (b % 16 * 4 + c / 64) / 4 = b := by omega
  have e2l : (b % 16 * 4 + c / 64) % 4 = c / 64 := by omega
  have e3 : c / 64 * 64 + c % 64 = c := by omega
  simp only [a2b, h1.1, h1.2.1, h2.1, h2.2.1, h3.1, h3.2.1, h4.1, h4.2.1,
    Bool.false_eq_true, if_false]
  rw [e1l, e1, e2l, e2, e3]

/-- Decoding the padded block of a single final byte. -/
theorem a2b_end1 (a : Nat) (ha : a < 256) (acc : List Nat) :
    a2b [sextetChar (a / 4), sextetChar (a % 4 * 16), '=', '='] 0 0 0 acc
      = Except.ok (acc.reverse ++ [a]) := by
  have h1 := sextet_facts (a / 4) (by omega)
  have h2 := sextet_facts (a % 4 * 16) (by omega)
  have e1 : a / 4 * 4 + a % 4 * 16 / 16 = a := by omega
  simp only [a2b, h1.1, h1.2.1, h2.1, h2.2.1, Bool.false_eq_true, if_false]
  norm_num
  omega

/-- Decoding the padded block of two final bytes. -/
theorem a2b_end2 (a b : Nat) (ha : a < 256) (hb : b < 256) (acc : List Nat) :
    a2b [sextetChar (a / 4), sextetChar (a % 4 * 16 + b / 16), sextetChar (b % 16 * 4), '='] 0 0 0 acc
      = Except.ok (acc.reverse ++ [a, b]) := by
  have h1 := sextet_facts (a / 4) (by omega)
  have h2 := sextet_facts (a % 4 * 16 + b / 16) (by omega)
  have h3 := sextet_facts (b % 16 * 4) (by omega)
  have e1 : a / 4 * 4 + (a % 4 * 16 + b / 16) / 16 = a := by omega
  have e1l : (a % 4 * 16 + b / 16) % 16 = b / 16 := by omega
  have e2 : b / 16 * 16 + b % 16 * 4 / 4 = b := by omega
  simp only [a2b, h1.1, h1.2.1, h2.1, h2.2.1, h3.1, h3.2.1, Bool.false_eq_true, if_false]
  norm_num
  exact ⟨by omega, by omega⟩

/-- The a2b state machine inverts the encoder. -/
theorem a2b_encode : ∀ B : List Nat, (∀ x ∈ B, x < 256) →
    ∀ acc : List Nat, a2b (b64EncodeList B) 0 0 0 acc = Except.ok (acc.reverse ++ B)
  | [], _, acc => by simp [b64EncodeList, a2b]
  | [a], h, acc => by
    rw [show b64EncodeList [a] =
      [sextetChar (a / 4), sextetChar (a % 4 * 16), '=', '='] from rfl]
    exact a2b_end1 a (h a (by simp)) acc
  | [a, b], h, acc => by
    rw [show b64EncodeList [a, b] =
      [sextetChar (a / 4), sextetChar (a % 4 * 16 + b / 16), sextetChar (b % 16 * 4), '='] from rfl]
    exact a2b_end2 a b (h a (by simp)) (h b (by simp)) acc
  | a :: b :: c :: rest, h, acc => by
    rw [show b64EncodeList (a :: b :: c :: rest) =
      sextetChar (a / 4) :: sextetChar (a % 4 * 16 + b / 16) ::
      sextetChar (b % 16 * 4 + c / 64) :: sextetChar (c % 64) :: b64EncodeList rest from rfl]
    rw [a2b_block a b c (h a (by simp)) (h b (by simp)) (h c (by simp)) _ acc]
    rw [a2b_encode rest (fun x hx => h x (by simp [hx])) (c :: b :: a :: acc)]
    simp

/-- Encoder output is ASCII. -/
theorem encode_ascii : ∀ B : List Nat, (∀ x ∈ B, x < 256) →
    (b64EncodeList B).any (fun c => decide (128 ≤ c.toNat)) = false
  | [], _ => rfl
  | [a], h => by
    have h1 := sextet_facts (a / 4) (by have := h a (by simp); omega)
    have h2 := sextet_facts (a % 4 * 16) (by have := h a (by simp); omega)
    simp [b64EncodeList, h1.2.2.1, h2.2.2.1]
  | [a, b], h => by
    have ha := h a (by simp)
    have hb := h b (by simp)
    have h1 := sextet_facts (a / 4) (by omega)
    have h2 := sextet_facts (a % 4 * 16 + b / 16) (by omega)
    have h3 := sextet_facts (b % 16 * 4) (by omega)
    simp [b64EncodeList, h1.2.2.1, h2.2.2.1, h3.2.2.1]
  | a :: b :: c :: rest, h => by
    have ha := h a (by simp)
    have hb := h b (by simp)
    have hc := h c (by simp)
    have h1 := sextet_facts (a / 4) (by omega)
    have h2 := sextet_facts (a % 4 * 16 + b / 16) (by omega)
    have h3 := sextet_facts (b % 16 * 4 + c / 64) (by omega)
    have h4 := sextet_facts (c % 64) (by omega)
    have ih := encode_ascii rest (fun x hx => h x (by simp [hx]))
    simp [b64EncodeList, h1.2.2.1, h2.2.2.1, h3.2.2.1, h4.2.2.1, ih]

/-- The codec round-trips: decoding the encoded token returns the bytes. -/
theorem b64_roundtrip (B : List Nat) (h : ∀ x ∈ B, x < 256) :
    b64decode (b64encode B).toList = Except.ok B := by
  show b64decode (b64EncodeList B) = Except.ok B
  unfold b64decode
  rw [encode_ascii B h, if_neg (by simp)]
  rw [a2b_encode B h []]
  rfl

/-! Behaviour of the client connect loop. -/

theorem connectAttemptsAux_all_dead (nodes : List Node) (live : Node → Bool) :
    ∀ rem current, current < nodes.length →
    (∀ j, j < rem → live (nodes.getD ((current + j) % nodes.length) ("", 0)) = false) →
    connectAttemptsAux nodes live current rem = (false, (current + rem) % nodes.length) := by
  intro rem
  induction rem with
  | zero =>
    intro current hcur _
    rw [Nat.add_zero, Nat.mod_eq_of_lt hcur]
    rfl
  | succ rem ih =>
    intro current hcur hdead
    have h0 := hdead 0 (by omega)
    rw [Nat.add_zero, Nat.mod_eq_of_lt hcur] at h0
    have hn : 0 < nodes.length := by omega
    unfold connectAttemptsAux
    rw [h0]
    simp only [Bool.false_eq_true, if_false]
    have hcur' : (current + 1) % nodes.length < nodes.length := Nat.mod_lt _ hn
    have hdead' : ∀ j, j < rem →
        live (nodes.getD (((current + 1) % nodes.length + j) % nodes.length) ("", 0)) = false := by
      intro j hj
      have := hdead (j + 1) (by omega)
      rw [Nat.mod_add_mod]
      rw [show current + 1 + j = current + (j + 1) by omega]
      exact this
    rw [ih ((current + 1) % nodes.length) hcur' hdead']
    rw [Nat.mod_add_mod]
    rw [show current + 1 + rem = current + (rem + 1) by omega]

theorem connectAttemptsAux_first_live (nodes : List Node) (live : Node → Bool) :
    ∀ rem current k, current < nodes.length → k < rem →
    (∀ j, j < k → live (nodes.getD ((current + j) % nodes.length) ("", 0)) = false) →
    live (nodes.getD ((current + k) % nodes.length) ("", 0)) = true →
    connectAttemptsAux nodes live current rem = (true, (current + k) % nodes.length) := by
  intro rem
  induction rem with
  | zero => intro current k _ hk; omega
  | succ rem ih =>
    intro current k hcur hk hdead hlive
    have hn : 0 < nodes.length := by omega
    match k with
    | 0 =>
      have hc : (current + 0) % nodes.length = current := by
        rw [Nat.add_zero, Nat.mod_eq_of_lt hcur]
      rw [hc] at hlive
      unfold connectAttemptsAux
      rw [hlive, hc]
      simp
    | k + 1 =>
      have h0 := hdead 0 (by omega)
      rw [Nat.add_zero, Nat.mod_eq_of_lt hcur] at h0
      unfold connectAttemptsAux
      rw [h0]
      simp only [Bool.false_eq_true, if_false]
      have hcur' : (current + 1) % nodes.length < nodes.length := Nat.mod_lt _ hn
      have hshift : ∀ m, ((current + 1) % nodes.length + m) % nodes.length
          = (current + (m + 1)) % nodes.length := by
        intro m
        rw [Nat.mod_add_mod]
        rw [show current + 1 + m = current + (m + 1) by omega]
      have hdead' : ∀ j, j < k →
          live (nodes.getD (((current + 1) % nodes.length + j) % nodes.length) ("", 0)) = false := by
        intro j hj
        rw [hshift j]
        exact hdead (j + 1) (by omega)
      have hlive' : live (nodes.getD (((current + 1) % nodes.length + k) % nodes.length) ("", 0)) = true := by
        rw [hshift k]
        exact hlive
      rw [ih ((current + 1) % nodes.length) k hcur' (by omega) hdead' hlive']
      rw [hshift k]

theorem connectAttemptsAux_exists_live (nodes : List Node) (live : Node → Bool) :
    ∀ rem current, current < nodes.length →
    (∃ k, k < rem ∧ live (nodes.getD ((current + k) % nodes.length) ("", 0)) = true) →
    (connectAttemptsAux nodes live current rem).1 = true := by
  intro rem
  induction rem with
  | zero => intro current _ h; omega
  | succ rem ih =>
    intro current hcur ⟨k, hk, hlive⟩
    have hn : 0 < nodes.length := by omega
    unfold connectAttemptsAux
    by_cases h0 : live (nodes.getD current ("", 0)) = true
    · rw [h0]; rfl
    · rw [Bool.not_eq_true] at h0
      rw [h0]
      simp only [Bool.false_eq_true, if_false]
      apply ih ((current + 1) % nodes.length) (Nat.mod_lt _ hn)
      match k with
      | 0 =>
        rw [Nat.add_zero, Nat.mod_eq_of_lt hcur] at hlive
        rw [hlive] at h0
        exact absurd h0 (by simp)
      | k + 1 =>
        refine ⟨k, by omega, ?_⟩
        rw [Nat.mod_add_mod]
        rw [show (current + 1 + k) = current + (k + 1) by omega]
        exact hlive

/-! Path resolution for well-behaved names. -/

/-- A name that is a single, non-special path component: non-empty, not `.` or
`..`, and free of `/`. -/
def simpleName (s : String) : Prop :=
  ¬ s = "" ∧ ¬ s = "." ∧ ¬ s = ".." ∧ ∀ c ∈ s.toList, ¬ c = '/'

instance (s : String) : Decidable (simpleName s) := by
  unfold simpleName
  infer_instance

theorem toList_append (a b : String) : (a ++ b).toList = a.toList ++ b.toList := by
  cases a
  cases b
  rfl

theorem toList_head_append (a b : String) (c : Char) (cs : List Char)
    (ha : a.toList = c :: cs) : (a ++ b).toList = c :: (cs ++ b.toList) := by
  rw [toList_append, ha]
  rfl

theorem pyStartsWith_slash_false (s : String) (c : Char) (cs : List Char)
    (hs : s.toList = c :: cs) (hc : ¬ c = '/') : pyStartsWith s "/" = false := by
  unfold pyStartsWith
  rw [hs]
  show List.isPrefixOf ['/'] (c :: cs) = false
  simp [List.isPrefixOf]
  exact fun hh => hc hh.symm

theorem simple_toList_cons (s : String) (hs : simpleName s) :
    ∃ c cs, s.toList = c :: cs ∧ ¬ c = '/' := by
  cases hl : s.toList with
  | nil =>
    exfalso
    apply hs.1
    rw [← mk_toList s, hl]
  | cons c cs =>
    exact ⟨c, cs, rfl, hs.2.2.2 c (by rw [hl]; simp)⟩

theorem simple_head (s : String) (hs : simpleName s) : pyStartsWith s "/" = false := by
  obtain ⟨c, cs, hl, hc⟩ := simple_toList_cons s hs
  exact pyStartsWith_slash_false s c cs hl hc

theorem splitSlashAux_token : ∀ t : List Char, (∀ c ∈ t, ¬ c = '/') →
    ∀ (rest acc : List Char), splitSlashAux (t ++ rest) acc = splitSlashAux rest (t.reverse ++ acc) := by
  intro t
  induction t with
  | nil => intro _ rest acc; simp
  | cons c t ih =>
    intro h rest acc
    have hc : ¬ c = '/' := h c (by simp)
    have hstep : splitSlashAux (c :: (t ++ rest)) acc
        = if c = '/' then acc.reverse :: splitSlashAux (t ++ rest) []
          else splitSlashAux (t ++ rest) (c :: acc) := rfl
    show splitSlashAux (c :: (t ++ rest)) acc = _
    rw [hstep, if_neg hc]
    rw [ih (fun x hx => h x (by simp [hx])) rest (c :: acc)]
    simp

theorem splitSlashAux_slash (rest acc : List Char) :
    splitSlashAux ('/' :: rest) acc = acc.reverse :: splitSlashAux rest [] := rfl

theorem splitSlashAux_last (t : List Char) (ht : ∀ c ∈ t, ¬ c = '/') (acc : List Char) :
    splitSlashAux t acc = [acc.reverse ++ t] := by
  have h := splitSlashAux_token t ht [] acc
  rw [List.append_nil] at h
  rw [h]
  show [(t.reverse ++ acc).reverse] = [acc.reverse ++ t]
  simp

theorem splitOnSlash_storage_user (u : String) (hu : ∀ c ∈ u.toList, ¬ c = '/') :
    splitOnSlash (("storage" ++ "/") ++ u) = ["storage", u] := by
  unfold splitOnSlash
  rw [toList_append]
  rw [show ("storage" ++ "/").toList = "storage".toList ++ ('/' :: []) from rfl]
  rw [List.append_assoc]
  rw [splitSlashAux_token "storage".toList (by decide)]
  show (splitSlashAux ('/' :: u.toList) _).map String.mk = _
  rw [splitSlashAux_slash]
  rw [splitSlashAux_last u.toList hu]
  simp [mk_toList]

theorem splitOnSlash_storage_user_file (u f : String)
    (hu : ∀ c ∈ u.toList, ¬ c = '/') (hf : ∀ c ∈ f.toList, ¬ c = '/') :
    splitOnSlash (((("storage" ++ "/") ++ u) ++ "/") ++ f) = ["storage", u, f] := by
  unfold splitOnSlash
  rw [toList_append, toList_append, toList_append]
  rw [show ("storage" ++ "/").toList = "storage".toList ++ ('/' :: []) from rfl]
  rw [show ("/" : String).toList = '/' :: [] from rfl]
  rw [List.append_assoc, List.append_assoc, List.append_assoc]
  rw [splitSlashAux_token "storage".toList (by decide)]
  show (splitSlashAux ('/' :: (u.toList ++ ('/' :: [] ++ f.toList))) _).map String.mk = _
  rw [splitSlashAux_slash]
  rw [splitSlashAux_token u.toList hu]
  show (((_ ++ []).reverse :: splitSlashAux ('/' :: f.toList) _).map String.mk) = _
  rw [splitSlashAux_slash]
  rw [splitSlashAux_last f.toList hf]
  simp [mk_toList]

theorem normPath_simple : ∀ (l acc : List String),
    (∀ x ∈ l, ¬ x = "" ∧ ¬ x = "." ∧ ¬ x = "..") →
    normPath acc l = acc.reverse ++ l := by
  intro l
  induction l with
  | nil => intro acc _; simp [normPath]
  | cons x l ih =>
    intro acc h
    obtain ⟨h1, h2, h3⟩ := h x (by simp)
    unfold normPath
    rw [if_neg (by simp [h1, h2]), if_neg h3]
    rw [ih (x :: acc) (fun y hy => h y (by simp [hy]))]
    simp

theorem resolve_userDir (u : String) (hu : simpleName u) :
    resolve (userDirStr u) = cwdPath ++ ["storage", u] := by
  unfold userDirStr joinPathStr
  rw [simple_head u hu]
  simp only [Bool.false_eq_true, if_false]
  unfold resolve
  have h1 : ("storage" ++ "/").toList = 's' :: "torage/".toList := rfl
  have h2 := toList_head_append ("storage" ++ "/") u 's' "torage/".toList h1
  rw [pyStartsWith_slash_false _ 's' _ h2 (by decide)]
  simp only [Bool.false_eq_true, if_false]
  rw [splitOnSlash_storage_user u hu.2.2.2]
  rw [normPath_simple _ [] (by
    intro x hx
    simp [cwdPath] at hx
    rcases hx with h | h | h | h <;> subst h
    · exact ⟨by decide, by decide, by decide⟩
    · exact ⟨by decide, by decide, by decide⟩
    · exact ⟨by decide, by decide, by decide⟩
    · exact ⟨hu.1, hu.2.1, hu.2.2.1⟩)]
  rfl

theorem filePathOf_simple (u f : String) (hu : simpleName u) (hf : simpleName f) :
    filePathOf u f = cwdPath ++ ["storage", u, f] := by
  unfold filePathOf userDirStr joinPathStr
  rw [simple_head u hu, simple_head f hf]
  simp only [Bool.false_eq_true, if_false]
  unfold resolve
  have h1 : ("storage" ++ "/").toList = 's' :: "torage/".toList := rfl
  have h2 := toList_head_append ("storage" ++ "/") u 's' "torage/".toList h1
  have h3 := toList_head_append (("storage" ++ "/") ++ u) "/" 's' _ h2
  have h4 := toList_head_append ((("storage" ++ "/") ++ u) ++ "/") f 's' _ h3
  rw [pyStartsWith_slash_false _ 's' _ h4 (by decide)]
  simp only [Bool.false_eq_true, if_false]
  rw [splitOnSlash_storage_user_file u f hu.2.2.2 hf.2.2.2]
  rw [normPath_simple _ [] (by
    intro x hx
    simp [cwdPath] at hx
    rcases hx with h | h | h | h | h <;> subst h
    · exact ⟨by decide, by decide, by decide⟩
    · exact ⟨by decide, by decide, by decide⟩
    · exact ⟨by decide, by decide, by decide⟩
    · exact ⟨hu.1, hu.2.1, hu.2.2.1⟩
    · exact ⟨hf.1, hf.2.1, hf.2.2.1⟩)]
  rfl

/-- Every name listed by `listDir` comes from a stored entry directly inside
the directory. -/
theorem listDir_mem (S : Storage) (dir : List String) (name : String)
    (h : name ∈ listDir S dir) : ∃ v, (dir ++ [name], v) ∈ S := by
  unfold listDir at h
  rw [List.mem_map] at h
  obtain ⟨e, he, hname⟩ := h
  rw [List.mem_filter] at he
  obtain ⟨heS, hcond⟩ := he
  rw [Bool.and_eq_true, beq_iff_eq, beq_iff_eq] at hcond
  obtain ⟨hlen, htake⟩ := hcond
  have hsplit := (List.take_append_drop dir.length e.1).symm
  rw [htake] at hsplit
  have hdlen : (e.1.drop dir.length).length = 1 := by
    rw [List.length_drop, hlen]
    omega
  cases hd : e.1.drop dir.length with
  | nil => rw [hd] at hdlen; simp at hdlen
  | cons y ys =>
    cases ys with
    | cons z zs => rw [hd] at hdlen; simp at hdlen
    | nil =>
      rw [hd] at hsplit
      have hy : y = name := by
        rw [hsplit] at hname
        rw [List.getD_append_right dir [y] "" dir.length (le_refl dir.length)] at hname
        simpa using hname
      refine ⟨e.2, ?_⟩
      have he1 : e.1 = dir ++ [name] := by rw [hsplit, hy]
      rw [← he1]
      exact heS

theorem closeSession_nodes (st : FileClient) : (closeSession st).nodes = st.nodes := by
  unfold closeSession
  cases st.session <;> rfl

theorem closeSession_current (st : FileClient) :
    (closeSession st).current_node = st.current_node := by
  unfold closeSession
  cases st.session <;> rfl

/-- Evaluation of `connectToNextNode` in terms of the attempt loop. -/
theorem connectToNextNode_spec (live : Node → Bool) (newId : Nat) (st : FileClient)
    (ok : Bool) (idx : Nat)
    (hA : connectAttemptsAux st.nodes live st.current_node st.nodes.length = (ok, idx)) :
    (connectToNextNode live newId st).1 = ok ∧
    (connectToNextNode live newId st).2.current_node = idx ∧
    (ok = true → (connectToNextNode live newId st).2.session = some newId) := by
  unfold connectToNextNode
  rw [closeSession_nodes, closeSession_current, hA]
  cases ok
  · exact ⟨rfl, rfl, fun h => Bool.noConfusion h⟩
  · exact ⟨rfl, rfl, fun _ => rfl⟩

/-! Claims. -/

/-- C1, counterexample: for the empty byte sequence the operational round trip
fails.  `encode([]) = ""`, so the sent line `UPLOAD f ` strips to two fields
and the server rejects it with `ERROR Invalid upload command`; the subsequent
DOWNLOAD replies `ERROR File not found`, not `OK <T>` as the claim requires
for every byte sequence. -/
theorem claim1_counterexample :
    b64encode [] = "" ∧
    processCommand ⟨[("alice", "pw")], some "alice", []⟩ ("UPLOAD f " ++ b64encode [])
      = (some "ERROR Invalid upload command", ⟨[("alice", "pw")], some "alice", []⟩) ∧
    (processCommand ⟨[("alice", "pw")], some "alice", []⟩ "DOWNLOAD f").1
      = some "ERROR File not found" :=
  ⟨rfl, by decide, by decide⟩

/-- C1 (amended): the payload codec round-trips on every byte sequence
(`decode(encode(B)) = B`), and for every NONEMPTY byte sequence B an UPLOAD of
filename F with payload `encode(B)` on an authenticated connection replies
`OK File uploaded` and stores B, after which a DOWNLOAD of F on the same
connection replies `OK <encode(B)>`, whose token decodes back to B.  For empty
B the UPLOAD line carries no payload field and is rejected (see the
counterexample). -/
theorem claim1_roundtrip (st : ServerConn) (user F : String) (B : List Nat)
    (upData dlData : String)
    (hauth : st.authUser = some user)
    (hB : ∀ x ∈ B, x < 256) (hBne : ¬ B = [])
    (hup : splitMax2 (pyStrip upData.toList)
      = ["UPLOAD".toList, F.toList, (b64encode B).toList])
    (hdl : splitMax2 (pyStrip dlData.toList) = ["DOWNLOAD".toList, F.toList]) :
    (∀ B' : List Nat, (∀ x ∈ B', x < 256) →
      b64decode (b64encode B').toList = Except.ok B') ∧
    processCommand st upData = (some "OK File uploaded",
      { st with storage := insertStore (filePathOf user F) B st.storage }) ∧
    (processCommand { st with storage := insertStore (filePathOf user F) B st.storage }
      dlData).1 = some ("OK " ++ b64encode B) := by
  refine ⟨fun B' h => b64_roundtrip B' h, ?_, ?_⟩
  · rw [processCommand_parsed st upData _ _ hup]
    rw [dispatch_authed st user _ _ hauth (by decide)]
    unfold dispatchAuthed
    rw [if_pos (by decide)]
    show uploadCmd st user (String.mk F.toList) (b64encode B).toList = _
    rw [mk_toList]
    unfold uploadCmd
    rw [b64_roundtrip B hB]
  · rw [processCommand_parsed _ dlData _ _ hdl]
    rw [dispatch_authed { st with storage := insertStore (filePathOf user F) B st.storage }
      user (listToUpper "DOWNLOAD".toList) [F.toList] hauth (by decide)]
    unfold dispatchAuthed
    rw [if_neg (by decide), if_pos (by decide)]
    show (downloadCmd { st with storage := insertStore (filePathOf user F) B st.storage }
      user (String.mk F.toList)).1 = _
    rw [mk_toList]
    unfold downloadCmd
    have hs : ({ st with storage := insertStore (filePathOf user F) B st.storage } :
        ServerConn).storage = insertStore (filePathOf user F) B st.storage := rfl
    rw [hs, lookupStore_insert]

def w1st : ServerConn := ⟨[("alice", "pw")], some "alice", []⟩

theorem claim1_witness :
    (∀ B' : List Nat, (∀ x ∈ B', x < 256) →
      b64decode (b64encode B').toList = Except.ok B') ∧
    processCommand w1st "UPLOAD notes.txt aGVsbG8=" = (some "OK File uploaded",
      { w1st with storage := insertStore (filePathOf "alice" "notes.txt") [104, 101, 108, 108, 111] w1st.storage }) ∧
    (processCommand { w1st with storage := insertStore (filePathOf "alice" "notes.txt") [104, 101, 108, 108, 111] w1st.storage }
      "DOWNLOAD notes.txt").1 = some ("OK " ++ b64encode [104, 101, 108, 108, 111]) :=
  claim1_roundtrip w1st "alice" "notes.txt" [104, 101, 108, 108, 111]
    "UPLOAD notes.txt aGVsbG8=" "DOWNLOAD notes.txt" rfl (by decide) (by decide)
    (by decide) (by decide)

def c2st0 : ServerConn := ⟨[("alice", "a"), ("bob", "b")], none, []⟩

/-- C2, counterexample: a first successful AUTH sets the authenticated
username to `alice`; a second successful AUTH on the same connection replies
`OK Authenticated` again and overwrites it with `bob` — so the username is not
set at most once and a subsequent AUTH does alter it. -/
theorem claim2_counterexample :
    (processCommand c2st0 "AUTH alice a").2.authUser = some "alice" ∧
    (processCommand (processCommand c2st0 "AUTH alice a").2 "AUTH bob b").1
      = some "OK Authenticated" ∧
    (processCommand (processCommand c2st0 "AUTH alice a").2 "AUTH bob b").2.authUser
      = some "bob" :=
  ⟨by decide, by decide, by decide⟩

/-- C2 (amended): the authenticated username changes only through a successful
AUTH command, which replies `OK Authenticated` and sets it to a user present in
the user mapping; failed AUTH commands and all other commands leave it
unchanged.  It is not write-once: a later successful AUTH overwrites it (see
the counterexample). -/
theorem claim2_auth_only (st : ServerConn) (data : String) (r : Option String)
    (st2 : ServerConn) (h : processCommand st data = (r, st2)) :
    st2.authUser = st.authUser ∨
    (r = some "OK Authenticated" ∧
      ∃ u pw, lookupUser st.users u = some pw ∧ st2.authUser = some u) := by
  unfold processCommand at h
  split at h
  · left; injection h with h1 h2; rw [← h2]
  · split at h
    · left; injection h with h1 h2; rw [← h2]
    · unfold dispatch at h
      split at h
      · split at h
        · rename_i u p harg
          unfold authCmd at h
          split at h
          · rename_i stored heq
            split at h
            · right
              injection h with h1 h2
              exact ⟨h1.symm, String.mk u, stored, heq, by rw [← h2]⟩
            · left; injection h with h1 h2; rw [← h2]
          · left; injection h with h1 h2; rw [← h2]
        · left; injection h with h1 h2; rw [← h2]
      · split at h
        · left; injection h with h1 h2; rw [← h2]
        · unfold dispatchAuthed at h
          split at h
          · split at h
            · unfold uploadCmd at h
              split at h
              · left; injection h with h1 h2; rw [← h2]
              · left; injection h with h1 h2; rw [← h2]
            · left; injection h with h1 h2; rw [← h2]
          · split at h
            · split at h
              · unfold downloadCmd at h
                split at h
                · left; injection h with h1 h2; rw [← h2]
                · left; injection h with h1 h2; rw [← h2]
              · left; injection h with h1 h2; rw [← h2]
            · split at h
              · split at h
                · unfold deleteCmd at h
                  split at h
                  · left; injection h with h1 h2; rw [← h2]
                  · left; injection h with h1 h2; rw [← h2]
                · left; injection h with h1 h2; rw [← h2]
              · split at h
                · left; injection h with h1 h2; rw [← h2]
                · left; injection h with h1 h2; rw [← h2]

theorem claim2_witness :
    (⟨[("alice", "a"), ("bob", "b")], some "alice", ([] : Storage)⟩ : ServerConn).authUser
        = c2st0.authUser ∨
    ((some "OK Authenticated" : Option String) = some "OK Authenticated" ∧
      ∃ u pw, lookupUser c2st0.users u = some pw ∧
        (⟨[("alice", "a"), ("bob", "b")], some "alice", ([] : Storage)⟩ : ServerConn).authUser
          = some u) :=
  claim2_auth_only c2st0 "AUTH alice a" (some "OK Authenticated")
    ⟨[("alice", "a"), ("bob", "b")], some "alice", []⟩ (by decide)

def c3st0 : FileClient := ⟨[("localhost", 8080)], 0, none, false⟩
def c3live : Node → Bool := fun _ => true
def c3st1 : FileClient := (authenticate c3live 1 (NetOutcome.reply "OK Authenticated") c3st0).2
def c3st2 : FileClient := (sendCommand c3live 1 NetOutcome.sendFail c3st1).2
def c3st3 : FileClient :=
  (sendCommand c3live 2 (NetOutcome.reply "ERROR Authentication required") c3st2).2

/-- C3, code bug: after `authenticate` succeeds on socket 1, a send failure in
`_send_command` sets `self.session = None` WITHOUT clearing
`self.authenticated` (client.py line 84), and the subsequent reconnect inside
`_ensure_connected` skips the `if self.session:` reset of
`_connect_to_next_node` (client.py lines 19-25) because the session is already
`None`.  The next operation therefore runs on the fresh socket 2 with
`authenticated` still true, although socket 2 never authenticated — the flag
survives the reconnection, contradicting the claimed invariant. -/
theorem claim3_auth_persists_across_reconnect :
    (authenticate c3live 1 (NetOutcome.reply "OK Authenticated") c3st0).1 = true ∧
    c3st1.session = some 1 ∧ c3st1.authenticated = true ∧
    c3st2.session = none ∧ c3st2.authenticated = true ∧
    c3st3.session = some 2 ∧ c3st3.authenticated = true :=
  ⟨by decide, by decide, by decide, by decide, by decide, by decide, by decide⟩

/-- C4: every command whose verb (first field, upper-cased) is not AUTH,
received on an unauthenticated connection, is answered exactly
`ERROR Authentication required`, and the whole connection state — including the
storage — is unchanged. -/
theorem claim4_auth_gate (st : ServerConn) (data : String) (verb : List Char)
    (args : List (List Char))
    (hp : splitMax2 (pyStrip data.toList) = verb :: args)
    (hverb : ¬ listToUpper verb = "AUTH".toList)
    (hauth : st.authUser = none) :
    processCommand st data = (some "ERROR Authentication required", st) :=
  unauth_gate st data verb args hp hverb hauth

theorem claim4_witness :
    processCommand ⟨[("alice", "pw")], none, []⟩ "LIST"
      = (some "ERROR Authentication required", ⟨[("alice", "pw")], none, []⟩) :=
  claim4_auth_gate ⟨[("alice", "pw")], none, []⟩ "LIST" "LIST".toList []
    (by decide) (by decide) rfl

/-- C5: an AUTH command with exactly two arguments is resolved against the
immutable user mapping: absent user → `ERROR User not found`, state unchanged;
present user with non-matching secret → `ERROR Invalid password`, state
unchanged; matching secret → `OK Authenticated` and the connection's
authenticated username is set to the given user. -/
theorem claim5_auth_semantics (st : ServerConn) (data : String) (v u p : List Char)
    (hp : splitMax2 (pyStrip data.toList) = [v, u, p])
    (hv : listToUpper v = "AUTH".toList) :
    processCommand st data =
      (match lookupUser st.users (String.mk u) with
       | some stored =>
         if stored = String.mk p then
           (some "OK Authenticated", { st with authUser := some (String.mk u) })
         else (some "ERROR Invalid password", st)
       | none => (some "ERROR User not found", st)) := by
  rw [processCommand_parsed st data v [u, p] hp]
  unfold dispatch
  rw [hv, if_pos rfl]
  rfl

def w5st : ServerConn := ⟨[("alice", "secret123")], none, []⟩

theorem claim5_witness :
    processCommand w5st "AUTH alice secret123" =
      (match lookupUser w5st.users (String.mk "alice".toList) with
       | some stored =>
         if stored = String.mk "secret123".toList then
           (some "OK Authenticated", { w5st with authUser := some (String.mk "alice".toList) })
         else (some "ERROR Invalid password", w5st)
       | none => (some "ERROR User not found", w5st)) :=
  claim5_auth_semantics w5st "AUTH alice secret123" "AUTH".toList "alice".toList
    "secret123".toList (by decide) (by decide)

/-- C6, counterexample: the payload `!!!!` consists only of characters outside
the base64 alphabet, yet `base64.b64decode` (non-strict by default) silently
discards them and returns the empty byte string, so the server replies
`OK File uploaded` and writes an empty file — decoding does not fail. -/
theorem claim6_counterexample :
    b64decode "!!!!".toList = Except.ok [] ∧
    processCommand ⟨[("alice", "pw")], some "alice", []⟩ "UPLOAD f !!!!"
      = (some "OK File uploaded",
        ⟨[("alice", "pw")], some "alice", [(["srv", "app", "storage", "alice", "f"], [])]⟩) :=
  ⟨by decide, by decide⟩

/-- C6 (amended): characters outside the base64 alphabet are silently
discarded rather than rejected; decoding fails (with the binascii padding
errors) exactly when the surviving data characters do not form a validly
padded sequence, and in that case the server replies
`ERROR Upload failed: <reason>` and the connection state — including the
storage — is unchanged, so no file is written. -/
theorem claim6_decode_failure (st : ServerConn) (user : String) (data : String)
    (fn payload : List Char) (msg : String)
    (hauth : st.authUser = some user)
    (hp : splitMax2 (pyStrip data.toList) = ["UPLOAD".toList, fn, payload])
    (herr : b64decode payload = Except.error msg) :
    processCommand st data = (some ("ERROR Upload failed: " ++ msg), st) := by
  rw [processCommand_parsed st data _ _ hp]
  rw [dispatch_authed st user _ _ hauth (by decide)]
  unfold dispatchAuthed
  rw [if_pos (by decide)]
  show uploadCmd st user (String.mk fn) payload = _
  unfold uploadCmd
  rw [herr]

theorem claim6_witness :
    processCommand ⟨[("alice", "pw")], some "alice", []⟩ "UPLOAD f abc"
      = (some "ERROR Upload failed: Incorrect padding",
        ⟨[("alice", "pw")], some "alice", []⟩) :=
  claim6_decode_failure ⟨[("alice", "pw")], some "alice", []⟩ "alice" "UPLOAD f abc"
    "f".toList "abc".toList "Incorrect padding" rfl (by decide) (by decide)

def c7st : ServerConn :=
  ⟨[("alice", "pw"), ("bob", "pw")], some "alice", [(filePathOf "bob" "secret", [1, 2, 3])]⟩

/-- C7, counterexample: filenames are not validated, so a connection
authenticated as `alice` downloads bob's file through the traversal filename
`../bob/secret`: the server replies `OK <encode(bob's bytes)>` instead of
`ERROR File not found`. -/
theorem claim7_counterexample :
    (processCommand c7st "DOWNLOAD ../bob/secret").1 = some ("OK " ++ b64encode [1, 2, 3]) ∧
    ¬ (processCommand c7st "DOWNLOAD ../bob/secret").1 = some "ERROR File not found" :=
  ⟨by decide, by decide⟩

/-- C7 (amended): provided the filenames involved are single path components
(no `/`, not `.` or `..`), per-user isolation holds: the resolved paths of the
same filename under distinct users differ; DOWNLOAD and DELETE by user `a` of a
filename `a` does not own reply `ERROR File not found` with unchanged state,
even if user `b` owns that filename; and every name in `a`'s LIST comes from an
entry stored directly in `a`'s own directory, which is never the resolved path
of any simple-named file of `b`.  Traversal filenames such as `../bob/secret`
break isolation (see the counterexample). -/
theorem claim7_isolation (st : ServerConn) (a b F : String) (dlData delData : String)
    (ha : simpleName a) (hb : simpleName b) (hab : ¬ a = b) (hF : simpleName F)
    (hauth : st.authUser = some a)
    (hdl : splitMax2 (pyStrip dlData.toList) = ["DOWNLOAD".toList, F.toList])
    (hdel : splitMax2 (pyStrip delData.toList) = ["DELETE".toList, F.toList]) :
    ¬ filePathOf a F = filePathOf b F ∧
    (lookupStore st.storage (filePathOf a F) = none →
      processCommand st dlData = (some "ERROR File not found", st) ∧
      processCommand st delData = (some "ERROR File not found", st)) ∧
    (∀ name, name ∈ listDir st.storage (resolve (userDirStr a)) →
      ∃ v, (resolve (userDirStr a) ++ [name], v) ∈ st.storage ∧
        ∀ g, simpleName g → ¬ resolve (userDirStr a) ++ [name] = filePathOf b g) := by
  refine ⟨?_, ?_, ?_⟩
  · rw [filePathOf_simple a F ha hF, filePathOf_simple b F hb hF]
    intro heq
    simp [cwdPath] at heq
    exact hab heq
  · intro hnone
    constructor
    · rw [processCommand_parsed st dlData _ _ hdl]
      rw [dispatch_authed st a _ _ hauth (by decide)]
      unfold dispatchAuthed
      rw [if_neg (by decide), if_pos (by decide)]
      show downloadCmd st a (String.mk F.toList) = _
      rw [mk_toList]
      unfold downloadCmd
      rw [hnone]
    · rw [processCommand_parsed st delData _ _ hdel]
      rw [dispatch_authed st a _ _ hauth (by decide)]
      unfold dispatchAuthed
      rw [if_neg (by decide), if_neg (by decide), if_pos (by decide)]
      show deleteCmd st a (String.mk F.toList) = _
      rw [mk_toList]
      unfold deleteCmd
      rw [hnone]
  · intro name hmem
    obtain ⟨v, hv⟩ := listDir_mem st.storage _ name hmem
    refine ⟨v, hv, ?_⟩
    intro g hg heq
    rw [resolve_userDir a ha, filePathOf_simple b g hb hg] at heq
    simp [cwdPath] at heq
    exact hab heq.1

def w7st : ServerConn :=
  ⟨[("alice", "pw"), ("bob", "pw")], some "alice", [(filePathOf "bob" "notes", [9])]⟩

theorem claim7_witness :
    processCommand w7st "DOWNLOAD notes" = (some "ERROR File not found", w7st) := by
  have h := claim7_isolation w7st "alice" "bob" "notes" "DOWNLOAD notes" "DELETE notes"
    (by decide) (by decide) (by decide) (by decide) rfl (by decide) (by decide)
  exact (h.2.1 (by decide)).1

/-- C8: on a non-empty endpoint list, `_connect_to_next_node` succeeds exactly
when some endpoint is reachable; it tries endpoints from the current index
onwards (wrapping modulo the list length), stops at the first reachable one and
retains its index with a fresh connected socket; and when every endpoint is
unreachable it reports failure with the index back at its starting value
(each endpoint having been tried exactly once). -/
theorem claim8_round_robin (live : Node → Bool) (newId : Nat) (st : FileClient)
    (hne : ¬ st.nodes = []) (hcur : st.current_node < st.nodes.length) :
    ((connectToNextNode live newId st).1 = true ↔
      ∃ i, i < st.nodes.length ∧ live (st.nodes.getD i ("", 0)) = true) ∧
    (∀ k, k < st.nodes.length →
      live (st.nodes.getD ((st.current_node + k) % st.nodes.length) ("", 0)) = true →
      (∀ j, j < k →
        live (st.nodes.getD ((st.current_node + j) % st.nodes.length) ("", 0)) = false) →
      (connectToNextNode live newId st).1 = true ∧
      (connectToNextNode live newId st).2.current_node
        = (st.current_node + k) % st.nodes.length ∧
      (connectToNextNode live newId st).2.session = some newId) ∧
    ((∀ i, i < st.nodes.length → live (st.nodes.getD i ("", 0)) = false) →
      (connectToNextNode live newId st).1 = false ∧
      (connectToNextNode live newId st).2.current_node = st.current_node) := by
  have hn : 0 < st.nodes.length := List.length_pos.mpr hne
  cases hA : connectAttemptsAux st.nodes live st.current_node st.nodes.length with
  | mk ok idx =>
    obtain ⟨hr1, hr2, hr3⟩ := connectToNextNode_spec live newId st ok idx hA
    refine ⟨⟨?_, ?_⟩, ?_, ?_⟩
    · intro hok
      by_contra hnex
      push_neg at hnex
      have hdead : ∀ i, i < st.nodes.length → live (st.nodes.getD i ("", 0)) = false := by
        intro i hi
        have hni := hnex i hi
        revert hni
        cases live (st.nodes.getD i ("", 0)) <;> simp
      have hAll := connectAttemptsAux_all_dead st.nodes live st.nodes.length st.current_node
        hcur (fun j _ => hdead _ (Nat.mod_lt _ hn))
      rw [hAll] at hA
      injection hA with hA1 hA2
      rw [hr1, ← hA1] at hok
      exact Bool.noConfusion hok
    · rintro ⟨i, hi, hlive⟩
      have hkex : ∃ k, k < st.nodes.length ∧
          live (st.nodes.getD ((st.current_node + k) % st.nodes.length) ("", 0)) = true := by
        refine ⟨(i + st.nodes.length - st.current_node) % st.nodes.length,
          Nat.mod_lt _ hn, ?_⟩
        have hidx : (st.current_node +
            (i + st.nodes.length - st.current_node) % st.nodes.length) % st.nodes.length
              = i := by
          rw [Nat.add_mod_mod]
          rw [show st.current_node + (i + st.nodes.length - st.current_node)
            = i + st.nodes.length by omega]
          rw [Nat.add_mod_right]
          exact Nat.mod_eq_of_lt hi
        rw [hidx]
        exact hlive
      have hx := connectAttemptsAux_exists_live st.nodes live st.nodes.length
        st.current_node hcur hkex
      rw [hA] at hx
      rw [hr1]
      exact hx
    · intro k hk hlive hdead
      have hF := connectAttemptsAux_first_live st.nodes live st.nodes.length
        st.current_node k hcur hk hdead hlive
      rw [hF] at hA
      injection hA with hA1 hA2
      exact ⟨by rw [hr1, ← hA1], by rw [hr2, ← hA2], hr3 (by rw [← hA1])⟩
    · intro hdead
      have hAll := connectAttemptsAux_all_dead st.nodes live st.nodes.length st.current_node
        hcur (fun j _ => hdead _ (Nat.mod_lt _ hn))
      rw [Nat.add_mod_right, Nat.mod_eq_of_lt hcur] at hAll
      rw [hAll] at hA
      injection hA with hA1 hA2
      exact ⟨by rw [hr1, ← hA1], by rw [hr2, ← hA2]⟩

def w8live : Node → Bool := fun node => node.1 == "live"
def w8st : FileClient := ⟨[("dead", 1), ("live", 2)], 0, none, false⟩

theorem claim8_witness :
    (connectToNextNode w8live 7 w8st).1 = true ∧
    (connectToNextNode w8live 7 w8st).2.current_node = 1 ∧
    (connectToNextNode w8live 7 w8st).2.session = some 7 := by
  have h := claim8_round_robin w8live 7 w8st (by decide) (by decide)
  have h2 := h.2.1 1 (by decide) (by decide) (by decide)
  exact ⟨h2.1, h2.2.1.trans (by decide), h2.2.2⟩

/-- C9: after a DELETE of filename F that succeeded with `OK File deleted` on a
connection authenticated as `user`, a DOWNLOAD of the same F on the resulting
connection state replies `ERROR File not found` and changes nothing. -/
theorem claim9_delete_then_download (st : ServerConn) (user F : String)
    (delData dlData : String) (st2 : ServerConn)
    (hauth : st.authUser = some user)
    (hdel : splitMax2 (pyStrip delData.toList) = ["DELETE".toList, F.toList])
    (hdl : splitMax2 (pyStrip dlData.toList) = ["DOWNLOAD".toList, F.toList])
    (hok : processCommand st delData = (some "OK File deleted", st2)) :
    processCommand st2 dlData = (some "ERROR File not found", st2) := by
  rw [processCommand_parsed st delData _ _ hdel] at hok
  rw [dispatch_authed st user _ _ hauth (by decide)] at hok
  unfold dispatchAuthed at hok
  rw [if_neg (by decide), if_neg (by decide), if_pos (by decide)] at hok
  have hok2 : deleteCmd st user (String.mk F.toList) = (some "OK File deleted", st2) := hok
  rw [mk_toList] at hok2
  unfold deleteCmd at hok2
  cases hlook : lookupStore st.storage (filePathOf user F) with
  | none =>
    rw [hlook] at hok2
    have hok3 : ((some "ERROR File not found" : Option String), st)
        = (some "OK File deleted", st2) := hok2
    injection hok3 with ha _
    exact absurd ha (by decide)
  | some content =>
    rw [hlook] at hok2
    have hok3 : ((some "OK File deleted" : Option String),
        { st with storage := eraseStore (filePathOf user F) st.storage })
          = (some "OK File deleted", st2) := hok2
    injection hok3 with _ hst2
    subst hst2
    rw [processCommand_parsed _ dlData _ _ hdl]
    rw [dispatch_authed { st with storage := eraseStore (filePathOf user F) st.storage }
      user (listToUpper "DOWNLOAD".toList) [F.toList] hauth (by decide)]
    unfold dispatchAuthed
    rw [if_neg (by decide), if_pos (by decide)]
    show (downloadCmd { st with storage := eraseStore (filePathOf user F) st.storage }
      user (String.mk F.toList)) = _
    rw [mk_toList]
    unfold downloadCmd
    have hs : ({ st with storage := eraseStore (filePathOf user F) st.storage } :
        ServerConn).storage = eraseStore (filePathOf user F) st.storage := rfl
    rw [hs, lookupStore_erase]

def w9st : ServerConn := ⟨[("alice", "pw")], some "alice", [(filePathOf "alice" "f", [1])]⟩
def w9st2 : ServerConn := ⟨[("alice", "pw")], some "alice", []⟩

theorem claim9_witness :
    processCommand w9st2 "DOWNLOAD f" = (some "ERROR File not found", w9st2) :=
  claim9_delete_then_download w9st "alice" "f" "DELETE f" "DOWNLOAD f" w9st2 rfl
    (by decide) (by decide) (by decide)

/-- C10: on an unauthenticated connection the authentication gate precedes verb
dispatch — no response is ever `ERROR Unknown command` (so that reply only
occurs on authenticated connections), and every command whose verb is not AUTH
(known or unknown) is answered `ERROR Authentication required`. -/
theorem claim10_gate_precedence (st : ServerConn) (data : String) (r : String)
    (st2 : ServerConn)
    (hrun : processCommand st data = (some r, st2))
    (hauth : st.authUser = none) :
    ¬ r = "ERROR Unknown command" ∧
    (∀ verb args, splitMax2 (pyStrip data.toList) = verb :: args →
      ¬ listToUpper verb = "AUTH".toList → r = "ERROR Authentication required") := by
  constructor
  · intro hr
    apply unauth_never_unknown st data hauth
    rw [hrun, hr]
  · intro verb args hp hverb
    have h := unauth_gate st data verb args hp hverb hauth
    rw [hrun] at h
    exact Option.some.inj (congrArg Prod.fst h)

theorem claim10_witness :
    ¬ "ERROR Authentication required" = "ERROR Unknown command" ∧
    (∀ verb args, splitMax2 (pyStrip ("FROB x" : String).toList) = verb :: args →
      ¬ listToUpper verb = "AUTH".toList →
      "ERROR Authentication required" = "ERROR Authentication required") :=
  claim10_gate_precedence ⟨[("alice", "pw")], none, []⟩ "FROB x"
    "ERROR Authentication required" ⟨[("alice", "pw")], none, []⟩ (by decide) rfl

end FileKeeper
